import Mathlib

/-!
Shallow embedding of the C/MRI frame decoder from `src/lib.rs` of the
`cmri_ip_to_485` crate, together with theorems settling the spec claims.

Bytes (`u8`) are embedded as `Nat`; the source only compares bytes for
equality with the reserved protocol constants, so behaviour on values
below 256 coincides exactly with the `u8` behaviour. The fixed array
`payload: [u8; 258]` is a `List Nat` of length 258 with in-place `set`
writes, and `position: usize` is a `Nat`. Fallible operations return
`Except Error`, mirroring the crate's `Result` alias, and `&mut self`
methods become explicit state passing returning the updated machine.
-/

/-- `RX_BUFFER_LEN` from `src/lib.rs`: capacity of the receive buffer. -/
def RX_BUFFER_LEN : Nat := 258

/-- `CMRI_PREAMBLE_BYTE = 0xff` from `src/lib.rs`. -/
def CMRI_PREAMBLE_BYTE : Nat := 0xff

/-- `CMRI_START_BYTE = 0x02` from `src/lib.rs`. -/
def CMRI_START_BYTE : Nat := 0x02

/-- `CMRI_STOP_BYTE = 0x03` from `src/lib.rs`. -/
def CMRI_STOP_BYTE : Nat := 0x03

/-- `CMRI_ESCAPE_BYTE = 0x10` from `src/lib.rs`. -/
def CMRI_ESCAPE_BYTE : Nat := 0x10

/-- `enum CmriState` from `src/lib.rs`: possible states of the C/MRI system.
The Rust variant `Type` collides with a Lean keyword and is rendered `Typ`. -/
inductive CmriState where
  | Idle
  | Attn
  | Start
  | Addr
  | Typ
  | Data
  | Escape
deriving DecidableEq, Repr

/-- `enum RxState` from `src/lib.rs`: result reported by `process`. -/
inductive RxState where
  | Listening
  | Complete
deriving DecidableEq, Repr

/-- The error enum of the crate (declared in the `error` module; its only
variant used by the library and its tests is `OutOfBounds`, returned when a
byte is pushed onto a full receive buffer). -/
inductive Error where
  | OutOfBounds
deriving DecidableEq, Repr

/-- The crate's `Result<T>` alias specialised to its `Error` type. -/
abbrev CmriResult (α : Type) := Except Error α

/-- `struct CmriStateMachine` from `src/lib.rs`: decoding state machine. -/
structure CmriStateMachine where
  state : CmriState
  payload : List Nat
  position : Nat
deriving DecidableEq, Repr

namespace CmriStateMachine

/-- `CmriStateMachine::new` from `src/lib.rs`. -/
def new : CmriStateMachine :=
  { state := .Idle
    payload := List.replicate RX_BUFFER_LEN 0
    position := 0 }

/-- `CmriStateMachine::push` from `src/lib.rs`: push a byte onto the rx
buffer, refusing with `Error::OutOfBounds` when the buffer is full. -/
def push (m : CmriStateMachine) (byte : Nat) :
    CmriStateMachine × CmriResult Unit :=
  if m.position = RX_BUFFER_LEN then
    (m, .error .OutOfBounds)
  else
    ({ m with
        payload := m.payload.set m.position byte
        position := m.position + 1 }, .ok ())

/-- `CmriStateMachine::clear` from `src/lib.rs`: empty the rx buffer. -/
def clear (m : CmriStateMachine) : CmriStateMachine :=
  { m with position := 0, payload := List.replicate RX_BUFFER_LEN 0 }

/-- `CmriStateMachine::process` from `src/lib.rs`: takes in bytes off the
wire and builds up a message in the receive buffer. The `?` operator on
`push` is rendered by matching on the `push` result and propagating the
error together with the machine as mutated so far. -/
def process (m : CmriStateMachine) (byte : Nat) :
    CmriStateMachine × CmriResult RxState :=
  match m.state with
  | .Idle =>
    -- Idle to Attn if byte is PREAMBLE; ignore other bytes while Idle
    if byte = CMRI_PREAMBLE_BYTE then
      match push (clear m) byte with
      | (m1, .error e) => (m1, .error e)
      | (m1, .ok _) => ({ m1 with state := .Attn }, .ok .Listening)
    else
      (m, .ok .Listening)
  | .Attn =>
    -- Attn to Start if byte is PREAMBLE, otherwise discard and reset
    if byte = CMRI_PREAMBLE_BYTE then
      match push m byte with
      | (m1, .error e) => (m1, .error e)
      | (m1, .ok _) => ({ m1 with state := .Start }, .ok .Listening)
    else
      ({ clear m with state := .Idle }, .ok .Listening)
  | .Start =>
    -- start byte must be valid, otherwise discard and reset
    if byte = CMRI_START_BYTE then
      match push m byte with
      | (m1, .error e) => (m1, .error e)
      | (m1, .ok _) => ({ m1 with state := .Addr }, .ok .Listening)
    else
      ({ clear m with state := .Idle }, .ok .Listening)
  | .Addr =>
    -- Take the next byte as-is for an address
    match push m byte with
    | (m1, .error e) => (m1, .error e)
    | (m1, .ok _) => ({ m1 with state := .Typ }, .ok .Listening)
  | .Typ =>
    -- Take the next byte as-is for message type
    match push m byte with
    | (m1, .error e) => (m1, .error e)
    | (m1, .ok _) => ({ m1 with state := .Data }, .ok .Listening)
  | .Data =>
    if byte = CMRI_ESCAPE_BYTE then
      -- escape the next byte
      match push m byte with
      | (m1, .error e) => (m1, .error e)
      | (m1, .ok _) => ({ m1 with state := .Escape }, .ok .Listening)
    else if byte = CMRI_STOP_BYTE then
      -- end transmission
      match push m byte with
      | (m1, .error e) => (m1, .error e)
      | (m1, .ok _) => ({ m1 with state := .Idle }, .ok .Complete)
    else
      -- any other byte we take as data
      match push m byte with
      | (m1, .error e) => (m1, .error e)
      | (m1, .ok _) => (m1, .ok .Listening)
  | .Escape =>
    -- Escape the next byte, so accept it as data
    match push m byte with
    | (m1, .error e) => (m1, .error e)
    | (m1, .ok _) => ({ m1 with state := .Data }, .ok .Listening)

/-- Feed a list of bytes through `process`, collecting the final machine
and the per-byte results in order. -/
def processTrace (m : CmriStateMachine) (bs : List Nat) :
    CmriStateMachine × List (CmriResult RxState) :=
  match bs with
  | [] => (m, [])
  | b :: rest =>
    let r := process m b
    let t := processTrace r.1 rest
    (t.1, r.2 :: t.2)

/-- Feed a list of bytes through `process`, keeping the final machine. -/
def processAll (m : CmriStateMachine) (bs : List Nat) : CmriStateMachine :=
  (processTrace m bs).1

/-- Whether `process` attempts to write the incoming byte at the machine's
current cursor. In `Idle` the buffer is cleared before a preamble byte is
pushed, so the write there happens at cursor 0 and never at the pre-call
cursor; in `Attn` and `Start` only the expected framing byte is pushed; in
the remaining states every byte is pushed. -/
def writesAtCursor : CmriState → Nat → Bool
  | .Idle, _ => false
  | .Attn, b => b == CMRI_PREAMBLE_BYTE
  | .Start, b => b == CMRI_START_BYTE
  | .Addr, _ => true
  | .Typ, _ => true
  | .Data, _ => true
  | .Escape, _ => true

end CmriStateMachine

/-- Modelled from the spec: the crate's `MessageType` enumeration (declared
outside `src/lib.rs`; only its use sites appear in the sources). §4.2 of the
spec requires a closed enumeration naming `Poll` and `Set` with an explicit
unknown variant for unrecognized type bytes, never a silent default. -/
inductive MessageType where
  | Poll
  | Set
  | Unknown
deriving DecidableEq, Repr

/-- Modelled from the spec: decoding of the fixed-position type byte into
`MessageType`. The spec does not fix the recognized byte values, so the
conventional C/MRI ASCII codes are used (0x50 for `Poll`, 0x54 for `Set`);
every unrecognized value maps to the explicit `Unknown` variant, and the
theorems below do not depend on which byte values are recognized. -/
def decodeMessageType (b : Nat) : MessageType :=
  if b = 0x50 then .Poll
  else if b = 0x54 then .Set
  else .Unknown

/-- Modelled from the spec: collapsing of the escape mechanism in the raw
data region — each `ESCAPE` byte followed by a literal byte becomes that
single literal byte in the logical data. -/
def collapseEscapes : List Nat → List Nat
  | [] => []
  | [b] => [b]
  | b :: c :: rest =>
    if b = CMRI_ESCAPE_BYTE then c :: collapseEscapes rest
    else b :: collapseEscapes (c :: rest)

/-- The reciprocal wire-format escaping from §6 of the spec: any `STOP`,
`ESCAPE` or `PREAMBLE`-valued byte inside the data region must be preceded
by `ESCAPE` in the raw stream. -/
def needsEscape (b : Nat) : Bool :=
  b == CMRI_STOP_BYTE || b == CMRI_ESCAPE_BYTE || b == CMRI_PREAMBLE_BYTE

/-- Escape a logical data payload into its raw on-wire form. -/
def escapeData : List Nat → List Nat
  | [] => []
  | b :: rest =>
    (if needsEscape b then [CMRI_ESCAPE_BYTE, b] else [b]) ++ escapeData rest

/-- Modelled from the spec: the Message View over a completed buffer.
`address` is the byte after the two preamble bytes and the start byte,
`message_type` is decoded from the following type byte, and `data` is the
region between the type byte and the stop byte with escapes collapsed. -/
structure MessageView where
  address : Nat
  message_type : MessageType
  data : List Nat
deriving DecidableEq, Repr

/-- Modelled from the spec: taking the Message View over the raw frame
accumulated in the decoder's buffer (the first `position` buffer bytes). -/
def CmriStateMachine.message (m : CmriStateMachine) : MessageView :=
  let raw := m.payload.take m.position
  { address := raw.getD 3 0
    message_type := decodeMessageType (raw.getD 4 0)
    data := collapseEscapes ((raw.drop 5).dropLast) }

/-- The raw byte sequence of a full valid frame from §6 of the spec:
`PREAMBLE PREAMBLE START ADDR TYPE [escaped DATA...] STOP`. -/
def fullFrame (addr typ : Nat) (D : List Nat) : List Nat :=
  [CMRI_PREAMBLE_BYTE, CMRI_PREAMBLE_BYTE, CMRI_START_BYTE, addr, typ]
    ++ escapeData D ++ [CMRI_STOP_BYTE]

/-- The buffer contents after the five header bytes of a frame have been
accepted by the decoder (proof support). -/
def framePrefixPayload (addr typ : Nat) : List Nat :=
  (((((List.replicate RX_BUFFER_LEN 0).set 0 CMRI_PREAMBLE_BYTE).set 1
      CMRI_PREAMBLE_BYTE).set 2 CMRI_START_BYTE).set 3 addr).set 4 typ

/-- The decoder as it stands right after one preamble byte from `Idle`. -/
def attnMachine : CmriStateMachine :=
  ⟨.Attn, (List.replicate RX_BUFFER_LEN 0).set 0 CMRI_PREAMBLE_BYTE, 1⟩

/-- The decoder as it stands right after two preamble bytes from `Idle`. -/
def startMachine : CmriStateMachine :=
  ⟨.Start,
    ((List.replicate RX_BUFFER_LEN 0).set 0 CMRI_PREAMBLE_BYTE).set 1
      CMRI_PREAMBLE_BYTE, 2⟩

/-- Whether a byte list begins with `PREAMBLE START` (the part of the
frame-start pattern still missing once one preamble byte is consumed). -/
def startsFrameTail2 (bs : List Nat) : Bool :=
  match bs with
  | x :: y :: _ => x == CMRI_PREAMBLE_BYTE && y == CMRI_START_BYTE
  | _ => false

/-- Whether a byte list begins with `START` (the part of the frame-start
pattern still missing once two preamble bytes are consumed). -/
def startsFrameTail1 (bs : List Nat) : Bool :=
  match bs with
  | x :: _ => x == CMRI_START_BYTE
  | _ => false

/-- Whether a byte list contains the contiguous frame-start pattern
`PREAMBLE PREAMBLE START` (`FF FF 02`). -/
def containsFrameStart : List Nat → Bool
  | [] => false
  | b :: rest =>
    (b == CMRI_PREAMBLE_BYTE && startsFrameTail2 rest) || containsFrameStart rest

namespace CmriStateMachine

theorem push_full (m : CmriStateMachine) (b : Nat) (h : m.position = RX_BUFFER_LEN) :
    push m b = (m, .error .OutOfBounds) := by
  simp [push, h]

theorem push_ok (m : CmriStateMachine) (b : Nat) (h : m.position ≠ RX_BUFFER_LEN) :
    push m b =
      ({ m with payload := m.payload.set m.position b, position := m.position + 1 },
        .ok ()) := by
  simp [push, h]

theorem process_idle_pre (P : List Nat) (pos : Nat) :
    process ⟨.Idle, P, pos⟩ CMRI_PREAMBLE_BYTE =
      (⟨.Attn, (List.replicate RX_BUFFER_LEN 0).set 0 CMRI_PREAMBLE_BYTE, 1⟩,
        .ok .Listening) := by
  have h0 : (0 : Nat) ≠ RX_BUFFER_LEN := by decide
  simp [process, push, clear, h0]

theorem process_idle_other (P : List Nat) (pos b : Nat) (hb : b ≠ CMRI_PREAMBLE_BYTE) :
    process ⟨.Idle, P, pos⟩ b = (⟨.Idle, P, pos⟩, .ok .Listening) := by
  simp [process, hb]

theorem process_attn_pre (P : List Nat) (pos : Nat) (hp : pos ≠ RX_BUFFER_LEN) :
    process ⟨.Attn, P, pos⟩ CMRI_PREAMBLE_BYTE =
      (⟨.Start, P.set pos CMRI_PREAMBLE_BYTE, pos + 1⟩, .ok .Listening) := by
  simp [process, push, hp]

theorem process_attn_pre_full (P : List Nat) :
    process ⟨.Attn, P, RX_BUFFER_LEN⟩ CMRI_PREAMBLE_BYTE =
      (⟨.Attn, P, RX_BUFFER_LEN⟩, .error .OutOfBounds) := by
  simp [process, push]

theorem process_attn_other (P : List Nat) (pos b : Nat) (hb : b ≠ CMRI_PREAMBLE_BYTE) :
    process ⟨.Attn, P, pos⟩ b =
      (⟨.Idle, List.replicate RX_BUFFER_LEN 0, 0⟩, .ok .Listening) := by
  simp [process, clear, hb]

theorem process_start_start (P : List Nat) (pos : Nat) (hp : pos ≠ RX_BUFFER_LEN) :
    process ⟨.Start, P, pos⟩ CMRI_START_BYTE =
      (⟨.Addr, P.set pos CMRI_START_BYTE, pos + 1⟩, .ok .Listening) := by
  simp [process, push, hp]

theorem process_start_start_full (P : List Nat) :
    process ⟨.Start, P, RX_BUFFER_LEN⟩ CMRI_START_BYTE =
      (⟨.Start, P, RX_BUFFER_LEN⟩, .error .OutOfBounds) := by
  simp [process, push]

theorem process_start_other (P : List Nat) (pos b : Nat) (hb : b ≠ CMRI_START_BYTE) :
    process ⟨.Start, P, pos⟩ b =
      (⟨.Idle, List.replicate RX_BUFFER_LEN 0, 0⟩, .ok .Listening) := by
  simp [process, clear, hb]

theorem process_addr (P : List Nat) (pos b : Nat) (hp : pos ≠ RX_BUFFER_LEN) :
    process ⟨.Addr, P, pos⟩ b =
      (⟨.Typ, P.set pos b, pos + 1⟩, .ok .Listening) := by
  simp [process, push, hp]

theorem process_addr_full (P : List Nat) (b : Nat) :
    process ⟨.Addr, P, RX_BUFFER_LEN⟩ b =
      (⟨.Addr, P, RX_BUFFER_LEN⟩, .error .OutOfBounds) := by
  simp [process, push]

theorem process_typ (P : List Nat) (pos b : Nat) (hp : pos ≠ RX_BUFFER_LEN) :
    process ⟨.Typ, P, pos⟩ b =
      (⟨.Data, P.set pos b, pos + 1⟩, .ok .Listening) := by
  simp [process, push, hp]

theorem process_typ_full (P : List Nat) (b : Nat) :
    process ⟨.Typ, P, RX_BUFFER_LEN⟩ b =
      (⟨.Typ, P, RX_BUFFER_LEN⟩, .error .OutOfBounds) := by
  simp [process, push]

theorem process_data_escape (P : List Nat) (pos : Nat) (hp : pos ≠ RX_BUFFER_LEN) :
    process ⟨.Data, P, pos⟩ CMRI_ESCAPE_BYTE =
      (⟨.Escape, P.set pos CMRI_ESCAPE_BYTE, pos + 1⟩, .ok .Listening) := by
  simp [process, push, hp]

theorem process_data_escape_full (P : List Nat) :
    process ⟨.Data, P, RX_BUFFER_LEN⟩ CMRI_ESCAPE_BYTE =
      (⟨.Data, P, RX_BUFFER_LEN⟩, .error .OutOfBounds) := by
  simp [process, push]

theorem process_data_stop (P : List Nat) (pos : Nat) (hp : pos ≠ RX_BUFFER_LEN) :
    process ⟨.Data, P, pos⟩ CMRI_STOP_BYTE =
      (⟨.Idle, P.set pos CMRI_STOP_BYTE, pos + 1⟩, .ok .Complete) := by
  simp [process, push, hp, CMRI_ESCAPE_BYTE, CMRI_STOP_BYTE]

theorem process_data_stop_full (P : List Nat) :
    process ⟨.Data, P, RX_BUFFER_LEN⟩ CMRI_STOP_BYTE =
      (⟨.Data, P, RX_BUFFER_LEN⟩, .error .OutOfBounds) := by
  simp [process, push, CMRI_ESCAPE_BYTE, CMRI_STOP_BYTE]

theorem process_data_other (P : List Nat) (pos b : Nat)
    (hbe : b ≠ CMRI_ESCAPE_BYTE) (hbs : b ≠ CMRI_STOP_BYTE)
    (hp : pos ≠ RX_BUFFER_LEN) :
    process ⟨.Data, P, pos⟩ b =
      (⟨.Data, P.set pos b, pos + 1⟩, .ok .Listening) := by
  simp [process, push, hp, hbe, hbs]

theorem process_data_other_full (P : List Nat) (b : Nat)
    (hbe : b ≠ CMRI_ESCAPE_BYTE) (hbs : b ≠ CMRI_STOP_BYTE) :
    process ⟨.Data, P, RX_BUFFER_LEN⟩ b =
      (⟨.Data, P, RX_BUFFER_LEN⟩, .error .OutOfBounds) := by
  simp [process, push, hbe, hbs]

theorem process_escape (P : List Nat) (pos b : Nat) (hp : pos ≠ RX_BUFFER_LEN) :
    process ⟨.Escape, P, pos⟩ b =
      (⟨.Data, P.set pos b, pos + 1⟩, .ok .Listening) := by
  simp [process, push, hp]

theorem process_escape_full (P : List Nat) (b : Nat) :
    process ⟨.Escape, P, RX_BUFFER_LEN⟩ b =
      (⟨.Escape, P, RX_BUFFER_LEN⟩, .error .OutOfBounds) := by
  simp [process, push]

end CmriStateMachine

namespace CmriStateMachine

theorem processAll_nil (m : CmriStateMachine) : processAll m [] = m := rfl

theorem processAll_cons (m : CmriStateMachine) (b : Nat) (bs : List Nat) :
    processAll m (b :: bs) = processAll (process m b).1 bs := by
  simp [processAll, processTrace]

theorem processTrace_nil (m : CmriStateMachine) : processTrace m [] = (m, []) := rfl

theorem processTrace_cons (m : CmriStateMachine) (b : Nat) (bs : List Nat) :
    processTrace m (b :: bs) =
      ((processTrace (process m b).1 bs).1,
        (process m b).2 :: (processTrace (process m b).1 bs).2) := by
  simp [processTrace]

theorem processTrace_append (m : CmriStateMachine) (xs ys : List Nat) :
    processTrace m (xs ++ ys) =
      ((processTrace (processTrace m xs).1 ys).1,
        (processTrace m xs).2 ++ (processTrace (processTrace m xs).1 ys).2) := by
  induction xs generalizing m with
  | nil => simp [processTrace]
  | cons x xs ih => simp [processTrace, ih]

end CmriStateMachine

theorem take_set_succ (P : List Nat) :
    ∀ (p b : Nat), p < P.length → (P.set p b).take (p + 1) = P.take p ++ [b] := by
  induction P with
  | nil => intro p b h; simp at h
  | cons x xs ih =>
    intro p b h
    cases p with
    | zero => simp
    | succ n =>
      have hn : n < xs.length := by simpa using h
      simp [List.set, ih n b hn]

namespace CmriStateMachine

theorem process_inv (m : CmriStateMachine) (b : Nat)
    (hpos : m.position ≤ RX_BUFFER_LEN) (hlen : m.payload.length = RX_BUFFER_LEN) :
    (process m b).1.position ≤ RX_BUFFER_LEN ∧
      (process m b).1.payload.length = RX_BUFFER_LEN := by
  obtain ⟨st, P, pos⟩ := m
  dsimp only at hpos hlen
  have hrep : (List.replicate RX_BUFFER_LEN (0 : Nat)).length = RX_BUFFER_LEN :=
    List.length_replicate _ _
  cases st
  case Idle =>
    by_cases hb : b = CMRI_PREAMBLE_BYTE
    · subst hb
      rw [process_idle_pre]
      exact ⟨by decide, by simp [hrep]⟩
    · rw [process_idle_other P pos b hb]
      exact ⟨hpos, hlen⟩
  case Attn =>
    by_cases hb : b = CMRI_PREAMBLE_BYTE
    · subst hb
      by_cases hp : pos = RX_BUFFER_LEN
      · subst hp
        rw [process_attn_pre_full]
        exact ⟨le_refl _, hlen⟩
      · rw [process_attn_pre P pos hp]
        exact ⟨by dsimp only; omega, by simp [hlen]⟩
    · rw [process_attn_other P pos b hb]
      exact ⟨by decide, hrep⟩
  case Start =>
    by_cases hb : b = CMRI_START_BYTE
    · subst hb
      by_cases hp : pos = RX_BUFFER_LEN
      · subst hp
        rw [process_start_start_full]
        exact ⟨le_refl _, hlen⟩
      · rw [process_start_start P pos hp]
        exact ⟨by dsimp only; omega, by simp [hlen]⟩
    · rw [process_start_other P pos b hb]
      exact ⟨by decide, hrep⟩
  case Addr =>
    by_cases hp : pos = RX_BUFFER_LEN
    · subst hp
      rw [process_addr_full]
      exact ⟨le_refl _, hlen⟩
    · rw [process_addr P pos b hp]
      exact ⟨by dsimp only; omega, by simp [hlen]⟩
  case Typ =>
    by_cases hp : pos = RX_BUFFER_LEN
    · subst hp
      rw [process_typ_full]
      exact ⟨le_refl _, hlen⟩
    · rw [process_typ P pos b hp]
      exact ⟨by dsimp only; omega, by simp [hlen]⟩
  case Data =>
    by_cases hbe : b = CMRI_ESCAPE_BYTE
    · subst hbe
      by_cases hp : pos = RX_BUFFER_LEN
      · subst hp
        rw [process_data_escape_full]
        exact ⟨le_refl _, hlen⟩
      · rw [process_data_escape P pos hp]
        exact ⟨by dsimp only; omega, by simp [hlen]⟩
    · by_cases hbs : b = CMRI_STOP_BYTE
      · subst hbs
        by_cases hp : pos = RX_BUFFER_LEN
        · subst hp
          rw [process_data_stop_full]
          exact ⟨le_refl _, hlen⟩
        · rw [process_data_stop P pos hp]
          exact ⟨by dsimp only; omega, by simp [hlen]⟩
      · by_cases hp : pos = RX_BUFFER_LEN
        · subst hp
          rw [process_data_other_full P b hbe hbs]
          exact ⟨le_refl _, hlen⟩
        · rw [process_data_other P pos b hbe hbs hp]
          exact ⟨by dsimp only; omega, by simp [hlen]⟩
  case Escape =>
    by_cases hp : pos = RX_BUFFER_LEN
    · subst hp
      rw [process_escape_full]
      exact ⟨le_refl _, hlen⟩
    · rw [process_escape P pos b hp]
      exact ⟨by dsimp only; omega, by simp [hlen]⟩

theorem processAll_inv (bs : List Nat) :
    ∀ (m : CmriStateMachine), m.position ≤ RX_BUFFER_LEN →
      m.payload.length = RX_BUFFER_LEN →
      (processAll m bs).position ≤ RX_BUFFER_LEN ∧
        (processAll m bs).payload.length = RX_BUFFER_LEN := by
  induction bs with
  | nil => intro m h1 h2; exact ⟨h1, h2⟩
  | cons b rest ih =>
    intro m h1 h2
    rw [processAll_cons]
    have step := process_inv m b h1 h2
    exact ih (process m b).1 step.1 step.2

theorem new_inv :
    new.position ≤ RX_BUFFER_LEN ∧ new.payload.length = RX_BUFFER_LEN := by
  refine ⟨by decide, ?_⟩
  simp [new]

end CmriStateMachine

theorem escapeData_eq_nil (D : List Nat) : escapeData D = [] ↔ D = [] := by
  cases D with
  | nil => simp [escapeData]
  | cons b rest =>
    constructor
    · intro h
      by_cases hb : needsEscape b <;> simp [escapeData, hb] at h
    · intro h
      simp at h

theorem not_needsEscape_iff (b : Nat) :
    needsEscape b = false ↔
      b ≠ CMRI_STOP_BYTE ∧ b ≠ CMRI_ESCAPE_BYTE ∧ b ≠ CMRI_PREAMBLE_BYTE := by
  simp [needsEscape, and_assoc]

theorem collapseEscapes_escapeData_append (D L : List Nat) :
    collapseEscapes (escapeData D ++ L) = D ++ collapseEscapes L := by
  induction D with
  | nil => rfl
  | cons b rest ih =>
    by_cases h : needsEscape b
    · simp only [escapeData, h, if_true, List.cons_append, List.nil_append,
        List.append_assoc]
      rw [collapseEscapes]
      simp [ih]
    · have hb : b ≠ CMRI_STOP_BYTE ∧ b ≠ CMRI_ESCAPE_BYTE ∧ b ≠ CMRI_PREAMBLE_BYTE :=
        (not_needsEscape_iff b).mp (by simpa using h)
      have hE2 : escapeData (b :: rest) = b :: escapeData rest := by
        simp [escapeData, h]
      rw [hE2, List.cons_append]
      cases hE : escapeData rest ++ L with
      | nil =>
        have h1 : escapeData rest = [] := (List.append_eq_nil.mp hE).1
        have h2 : L = [] := (List.append_eq_nil.mp hE).2
        have h3 : rest = [] := (escapeData_eq_nil rest).mp h1
        simp [hE, h3, h2, collapseEscapes]
      | cons c rest' =>
        have hstep : collapseEscapes (b :: c :: rest') = b :: collapseEscapes (c :: rest') := by
          simp only [collapseEscapes]
          rw [if_neg hb.2.1]
        rw [hstep, ← hE, ih]
        simp

theorem collapseEscapes_escapeData (D : List Nat) :
    collapseEscapes (escapeData D) = D := by
  have h := collapseEscapes_escapeData_append D []
  simpa [collapseEscapes] using h

namespace CmriStateMachine

theorem runData (D : List Nat) :
    ∀ (P : List Nat) (pos : Nat), P.length = RX_BUFFER_LEN →
      pos + (escapeData D).length ≤ RX_BUFFER_LEN →
      (processTrace ⟨.Data, P, pos⟩ (escapeData D)).1.state = .Data ∧
      (processTrace ⟨.Data, P, pos⟩ (escapeData D)).1.position =
        pos + (escapeData D).length ∧
      (processTrace ⟨.Data, P, pos⟩ (escapeData D)).1.payload.length = RX_BUFFER_LEN ∧
      (processTrace ⟨.Data, P, pos⟩ (escapeData D)).1.payload.take
          (pos + (escapeData D).length) = P.take pos ++ escapeData D ∧
      (processTrace ⟨.Data, P, pos⟩ (escapeData D)).2 =
        List.replicate (escapeData D).length (.ok .Listening) := by
  induction D with
  | nil =>
    intro P pos hlen hcap
    simp [escapeData, processTrace, hlen]
  | cons b rest ih =>
    intro P pos hlen hcap
    by_cases hb : needsEscape b
    · have hE : escapeData (b :: rest) = CMRI_ESCAPE_BYTE :: b :: escapeData rest := by
        simp [escapeData, hb]
      rw [hE] at hcap ⊢
      have hcap' : pos + (escapeData rest).length + 2 ≤ RX_BUFFER_LEN := by
        simp only [List.length_cons] at hcap
        omega
      have hp1 : pos ≠ RX_BUFFER_LEN := by omega
      have hp2 : pos + 1 ≠ RX_BUFFER_LEN := by omega
      have hlen1 : (P.set pos CMRI_ESCAPE_BYTE).length = RX_BUFFER_LEN := by
        simp [hlen]
      have hlen2 : ((P.set pos CMRI_ESCAPE_BYTE).set (pos + 1) b).length = RX_BUFFER_LEN := by
        simp [hlen]
      have s1 : process ⟨.Data, P, pos⟩ CMRI_ESCAPE_BYTE =
          (⟨.Escape, P.set pos CMRI_ESCAPE_BYTE, pos + 1⟩, .ok .Listening) :=
        process_data_escape P pos hp1
      have s2 : process ⟨.Escape, P.set pos CMRI_ESCAPE_BYTE, pos + 1⟩ b =
          (⟨.Data, (P.set pos CMRI_ESCAPE_BYTE).set (pos + 1) b, pos + 2⟩,
            .ok .Listening) :=
        process_escape _ (pos + 1) b hp2
      obtain ⟨ihs, ihp, ihl, iht, ihr⟩ :=
        ih ((P.set pos CMRI_ESCAPE_BYTE).set (pos + 1) b) (pos + 2) hlen2 (by omega)
      have t1 : (P.set pos CMRI_ESCAPE_BYTE).take (pos + 1) =
          P.take pos ++ [CMRI_ESCAPE_BYTE] :=
        take_set_succ P pos CMRI_ESCAPE_BYTE (by omega)
      have t2 : ((P.set pos CMRI_ESCAPE_BYTE).set (pos + 1) b).take (pos + 2) =
          (P.set pos CMRI_ESCAPE_BYTE).take (pos + 1) ++ [b] :=
        take_set_succ (P.set pos CMRI_ESCAPE_BYTE) (pos + 1) b (by rw [hlen1]; omega)
      rw [processTrace_cons, s1]
      dsimp only
      rw [processTrace_cons, s2]
      dsimp only
      refine ⟨ihs, ?_, ihl, ?_, ?_⟩
      · simp only [List.length_cons]
        omega
      · have hidx : pos + (CMRI_ESCAPE_BYTE :: b :: escapeData rest).length =
            pos + 2 + (escapeData rest).length := by
          simp only [List.length_cons]
          omega
        rw [hidx, iht, t2, t1]
        simp
      · rw [ihr]
        simp [List.replicate_succ]
    · have hbne : b ≠ CMRI_STOP_BYTE ∧ b ≠ CMRI_ESCAPE_BYTE ∧ b ≠ CMRI_PREAMBLE_BYTE :=
        (not_needsEscape_iff b).mp (by simpa using hb)
      have hE : escapeData (b :: rest) = b :: escapeData rest := by
        simp [escapeData, hb]
      rw [hE] at hcap ⊢
      have hcap' : pos + (escapeData rest).length + 1 ≤ RX_BUFFER_LEN := by
        simp only [List.length_cons] at hcap
        omega
      have hp1 : pos ≠ RX_BUFFER_LEN := by omega
      have hlen1 : (P.set pos b).length = RX_BUFFER_LEN := by simp [hlen]
      have s1 : process ⟨.Data, P, pos⟩ b =
          (⟨.Data, P.set pos b, pos + 1⟩, .ok .Listening) :=
        process_data_other P pos b hbne.2.1 hbne.1 hp1
      obtain ⟨ihs, ihp, ihl, iht, ihr⟩ :=
        ih (P.set pos b) (pos + 1) hlen1 (by omega)
      have t1 : (P.set pos b).take (pos + 1) = P.take pos ++ [b] :=
        take_set_succ P pos b (by omega)
      rw [processTrace_cons, s1]
      dsimp only
      refine ⟨ihs, ?_, ihl, ?_, ?_⟩
      · simp only [List.length_cons]
        omega
      · have hidx : pos + (b :: escapeData rest).length =
            pos + 1 + (escapeData rest).length := by
          simp only [List.length_cons]
          omega
        rw [hidx, iht, t1]
        simp
      · rw [ihr]
        simp [List.replicate_succ]

end CmriStateMachine

theorem take_five_sets (P : List Nat) (a b c d e : Nat) (h : 5 ≤ P.length) :
    (((((P.set 0 a).set 1 b).set 2 c).set 3 d).set 4 e).take 5 = [a, b, c, d, e] := by
  have h0 : (P.set 0 a).take 1 = P.take 0 ++ [a] := by
    simpa using take_set_succ P 0 a (by omega)
  have h1 : ((P.set 0 a).set 1 b).take 2 = (P.set 0 a).take 1 ++ [b] := by
    simpa using take_set_succ (P.set 0 a) 1 b (by simp; omega)
  have h2 : (((P.set 0 a).set 1 b).set 2 c).take 3 =
      ((P.set 0 a).set 1 b).take 2 ++ [c] := by
    simpa using take_set_succ ((P.set 0 a).set 1 b) 2 c (by simp; omega)
  have h3 : ((((P.set 0 a).set 1 b).set 2 c).set 3 d).take 4 =
      (((P.set 0 a).set 1 b).set 2 c).take 3 ++ [d] := by
    simpa using take_set_succ (((P.set 0 a).set 1 b).set 2 c) 3 d (by simp; omega)
  have h4 : (((((P.set 0 a).set 1 b).set 2 c).set 3 d).set 4 e).take 5 =
      ((((P.set 0 a).set 1 b).set 2 c).set 3 d).take 4 ++ [e] := by
    simpa using take_set_succ ((((P.set 0 a).set 1 b).set 2 c).set 3 d) 4 e
      (by simp; omega)
  rw [h4, h3, h2, h1, h0]
  simp

namespace CmriStateMachine

theorem frame_trace (addr typ : Nat) (D : List Nat)
    (hcap : 6 + (escapeData D).length ≤ RX_BUFFER_LEN) :
    (processAll new (fullFrame addr typ D)).state = .Idle ∧
    (processAll new (fullFrame addr typ D)).position = 6 + (escapeData D).length ∧
    (processAll new (fullFrame addr typ D)).payload.length = RX_BUFFER_LEN ∧
    (processAll new (fullFrame addr typ D)).payload.take (6 + (escapeData D).length) =
      fullFrame addr typ D ∧
    (processTrace new (fullFrame addr typ D)).2 =
      List.replicate (5 + (escapeData D).length) (.ok .Listening) ++
        [.ok .Complete] := by
  have hR : (List.replicate RX_BUFFER_LEN (0 : Nat)).length = RX_BUFFER_LEN :=
    List.length_replicate _ _
  have hFF : fullFrame addr typ D =
      CMRI_PREAMBLE_BYTE :: CMRI_PREAMBLE_BYTE :: CMRI_START_BYTE :: addr :: typ ::
        (escapeData D ++ [CMRI_STOP_BYTE]) := by
    simp [fullFrame]
  have hP5len : (framePrefixPayload addr typ).length = RX_BUFFER_LEN := by
    simp [framePrefixPayload, hR]
  have hcap5 : 5 + (escapeData D).length ≤ RX_BUFFER_LEN := by omega
  have s1 : process new CMRI_PREAMBLE_BYTE =
      (⟨.Attn, (List.replicate RX_BUFFER_LEN 0).set 0 CMRI_PREAMBLE_BYTE, 1⟩,
        .ok .Listening) :=
    process_idle_pre (List.replicate RX_BUFFER_LEN 0) 0
  have s2 : process ⟨.Attn, (List.replicate RX_BUFFER_LEN 0).set 0 CMRI_PREAMBLE_BYTE, 1⟩
      CMRI_PREAMBLE_BYTE =
      (⟨.Start, ((List.replicate RX_BUFFER_LEN 0).set 0 CMRI_PREAMBLE_BYTE).set 1
          CMRI_PREAMBLE_BYTE, 2⟩, .ok .Listening) :=
    process_attn_pre _ 1 (by decide)
  have s3 : process ⟨.Start, ((List.replicate RX_BUFFER_LEN 0).set 0
        CMRI_PREAMBLE_BYTE).set 1 CMRI_PREAMBLE_BYTE, 2⟩ CMRI_START_BYTE =
      (⟨.Addr, (((List.replicate RX_BUFFER_LEN 0).set 0 CMRI_PREAMBLE_BYTE).set 1
          CMRI_PREAMBLE_BYTE).set 2 CMRI_START_BYTE, 3⟩, .ok .Listening) :=
    process_start_start _ 2 (by decide)
  have s4 : process ⟨.Addr, (((List.replicate RX_BUFFER_LEN 0).set 0
        CMRI_PREAMBLE_BYTE).set 1 CMRI_PREAMBLE_BYTE).set 2 CMRI_START_BYTE, 3⟩ addr =
      (⟨.Typ, ((((List.replicate RX_BUFFER_LEN 0).set 0 CMRI_PREAMBLE_BYTE).set 1
          CMRI_PREAMBLE_BYTE).set 2 CMRI_START_BYTE).set 3 addr, 4⟩, .ok .Listening) :=
    process_addr _ 3 addr (by decide)
  have s5 : process ⟨.Typ, ((((List.replicate RX_BUFFER_LEN 0).set 0
        CMRI_PREAMBLE_BYTE).set 1 CMRI_PREAMBLE_BYTE).set 2 CMRI_START_BYTE).set 3
        addr, 4⟩ typ =
      (⟨.Data, framePrefixPayload addr typ, 5⟩, .ok .Listening) :=
    process_typ _ 4 typ (by decide)
  obtain ⟨ihs, ihp, ihl, iht, ihr⟩ :=
    runData D (framePrefixPayload addr typ) 5 hP5len hcap5
  have hM6eta : (processTrace ⟨.Data, framePrefixPayload addr typ, 5⟩
      (escapeData D)).1 =
      ⟨.Data, (processTrace ⟨.Data, framePrefixPayload addr typ, 5⟩ (escapeData D)).1.payload,
        (processTrace ⟨.Data, framePrefixPayload addr typ, 5⟩ (escapeData D)).1.position⟩ := by
    have heta : (processTrace ⟨.Data, framePrefixPayload addr typ, 5⟩ (escapeData D)).1 =
        ⟨(processTrace ⟨.Data, framePrefixPayload addr typ, 5⟩ (escapeData D)).1.state,
          (processTrace ⟨.Data, framePrefixPayload addr typ, 5⟩ (escapeData D)).1.payload,
          (processTrace ⟨.Data, framePrefixPayload addr typ, 5⟩ (escapeData D)).1.position⟩ :=
      rfl
    rw [ihs] at heta
    exact heta
  have hne6 : (processTrace ⟨.Data, framePrefixPayload addr typ, 5⟩
      (escapeData D)).1.position ≠ RX_BUFFER_LEN := by
    rw [ihp]; omega
  have s6 : process (processTrace ⟨.Data, framePrefixPayload addr typ, 5⟩
      (escapeData D)).1 CMRI_STOP_BYTE =
      (⟨.Idle,
        (processTrace ⟨.Data, framePrefixPayload addr typ, 5⟩
          (escapeData D)).1.payload.set
            (processTrace ⟨.Data, framePrefixPayload addr typ, 5⟩
              (escapeData D)).1.position CMRI_STOP_BYTE,
        (processTrace ⟨.Data, framePrefixPayload addr typ, 5⟩
          (escapeData D)).1.position + 1⟩, .ok .Complete) := by
    conv_lhs => rw [hM6eta]
    exact process_data_stop _ _ hne6
  have htake5 : (framePrefixPayload addr typ).take 5 =
      [CMRI_PREAMBLE_BYTE, CMRI_PREAMBLE_BYTE, CMRI_START_BYTE, addr, typ] := by
    have : 5 ≤ (List.replicate RX_BUFFER_LEN (0 : Nat)).length := by rw [hR]; decide
    exact take_five_sets _ _ _ _ _ _ this
  simp only [processAll, hFF]
  rw [processTrace_cons, s1]
  dsimp only
  rw [processTrace_cons, s2]
  dsimp only
  rw [processTrace_cons, s3]
  dsimp only
  rw [processTrace_cons, s4]
  dsimp only
  rw [processTrace_cons, s5]
  dsimp only
  rw [processTrace_append]
  dsimp only
  rw [processTrace_cons, s6]
  dsimp only
  rw [processTrace_nil]
  dsimp only
  refine ⟨rfl, by rw [ihp]; omega, by simp [List.length_set, ihl], ?_, ?_⟩
  · have hidx : 6 + (escapeData D).length =
        (processTrace ⟨.Data, framePrefixPayload addr typ, 5⟩
          (escapeData D)).1.position + 1 := by
      rw [ihp]; omega
    rw [hidx]
    have htk := take_set_succ
      (processTrace ⟨.Data, framePrefixPayload addr typ, 5⟩ (escapeData D)).1.payload
      (processTrace ⟨.Data, framePrefixPayload addr typ, 5⟩ (escapeData D)).1.position
      CMRI_STOP_BYTE (by rw [ihl, ihp]; omega)
    rw [htk]
    have iht' : (processTrace ⟨.Data, framePrefixPayload addr typ, 5⟩
        (escapeData D)).1.payload.take
          ((processTrace ⟨.Data, framePrefixPayload addr typ, 5⟩
            (escapeData D)).1.position) =
        (framePrefixPayload addr typ).take 5 ++ escapeData D := by
      rw [ihp]; exact iht
    rw [iht', htake5]
    simp
  · rw [ihr]
    have : (5 : Nat) + (escapeData D).length = (escapeData D).length + 5 := by omega
    rw [this]
    simp [List.replicate_add, List.replicate_succ]

end CmriStateMachine

namespace CmriStateMachine

theorem resync_run (bs : List Nat) :
    (containsFrameStart bs = false →
      processAll new bs = new ∨ processAll new bs = attnMachine ∨
        processAll new bs = startMachine) ∧
    (containsFrameStart bs = false → startsFrameTail2 bs = false →
      processAll attnMachine bs = new ∨ processAll attnMachine bs = attnMachine ∨
        processAll attnMachine bs = startMachine) ∧
    (containsFrameStart bs = false → startsFrameTail1 bs = false →
      processAll startMachine bs = new ∨ processAll startMachine bs = attnMachine ∨
        processAll startMachine bs = startMachine) := by
  induction bs with
  | nil =>
    exact ⟨fun _ => Or.inl rfl, fun _ _ => Or.inr (Or.inl rfl),
      fun _ _ => Or.inr (Or.inr rfl)⟩
  | cons b rest ih =>
    obtain ⟨ih0, ih1, ih2⟩ := ih
    have split_hc : containsFrameStart (b :: rest) = false →
        (b = CMRI_PREAMBLE_BYTE → startsFrameTail2 rest = false) ∧
          containsFrameStart rest = false := by
      intro hc
      rw [containsFrameStart] at hc
      constructor
      · intro hb
        subst hb
        cases hx : startsFrameTail2 rest
        · rfl
        · rw [hx] at hc
          simp at hc
      · cases hx : containsFrameStart rest
        · rfl
        · rw [hx] at hc
          simp at hc
    refine ⟨?_, ?_, ?_⟩
    · intro hc
      obtain ⟨hcb, hcr⟩ := split_hc hc
      by_cases hb : b = CMRI_PREAMBLE_BYTE
      · subst hb
        rw [processAll_cons]
        have hstep : process new CMRI_PREAMBLE_BYTE = (attnMachine, .ok .Listening) :=
          process_idle_pre (List.replicate RX_BUFFER_LEN 0) 0
        rw [hstep]
        exact ih1 hcr (hcb rfl)
      · rw [processAll_cons]
        have hstep : process new b = (new, .ok .Listening) :=
          process_idle_other (List.replicate RX_BUFFER_LEN 0) 0 b hb
        rw [hstep]
        exact ih0 hcr
    · intro hc h2
      obtain ⟨hcb, hcr⟩ := split_hc hc
      by_cases hb : b = CMRI_PREAMBLE_BYTE
      · subst hb
        have ht1 : startsFrameTail1 rest = false := by
          cases rest with
          | nil => rfl
          | cons y t =>
            rw [startsFrameTail2] at h2
            rw [startsFrameTail1]
            simp at h2 ⊢
            exact h2
        rw [processAll_cons]
        have hstep : process attnMachine CMRI_PREAMBLE_BYTE =
            (startMachine, .ok .Listening) :=
          process_attn_pre ((List.replicate RX_BUFFER_LEN 0).set 0 CMRI_PREAMBLE_BYTE)
            1 (by decide)
        rw [hstep]
        exact ih2 hcr ht1
      · rw [processAll_cons]
        have hstep : process attnMachine b = (new, .ok .Listening) :=
          process_attn_other ((List.replicate RX_BUFFER_LEN 0).set 0 CMRI_PREAMBLE_BYTE)
            1 b hb
        rw [hstep]
        exact ih0 hcr
    · intro hc h1
      obtain ⟨hcb, hcr⟩ := split_hc hc
      by_cases hb : b = CMRI_START_BYTE
      · exfalso
        subst hb
        rw [startsFrameTail1] at h1
        simp at h1
      · rw [processAll_cons]
        have hstep : process startMachine b = (new, .ok .Listening) :=
          process_start_other (((List.replicate RX_BUFFER_LEN 0).set 0
            CMRI_PREAMBLE_BYTE).set 1 CMRI_PREAMBLE_BYTE) 2 b hb
        rw [hstep]
        exact ih0 hcr

end CmriStateMachine

namespace CmriStateMachine

/-- C1: For every decoder state satisfying the buffer invariants and every
input byte, a successful `process` call returns `Complete` exactly when the
decoder was in the `Data` state and the byte is the stop byte `0x03`; on
that same call the stop byte is appended to the buffer and the state becomes
`Idle`; in every other case in which no error occurs, `process` returns
`Listening`. -/
theorem c1_complete_iff (m : CmriStateMachine) (b : Nat) (m' : CmriStateMachine)
    (r : RxState) (hlen : m.payload.length = RX_BUFFER_LEN)
    (hpos : m.position ≤ RX_BUFFER_LEN)
    (hok : process m b = (m', .ok r)) :
    ((r = .Complete) ↔ (m.state = .Data ∧ b = CMRI_STOP_BYTE)) ∧
    (r = .Complete →
      m'.state = .Idle ∧ m'.position = m.position + 1 ∧
        m'.payload.take m'.position =
          m.payload.take m.position ++ [CMRI_STOP_BYTE]) ∧
    (¬(m.state = .Data ∧ b = CMRI_STOP_BYTE) → r = .Listening) := by
  obtain ⟨st, P, pos⟩ := m
  dsimp only at hlen hpos ⊢
  cases st
  case Idle =>
    by_cases hb : b = CMRI_PREAMBLE_BYTE
    · subst hb
      rw [process_idle_pre] at hok
      injection hok with h1 h2
      injection h2 with h3
      subst h3
      exact ⟨by simp, by simp, fun _ => rfl⟩
    · rw [process_idle_other P pos b hb] at hok
      injection hok with h1 h2
      injection h2 with h3
      subst h3
      exact ⟨by simp, by simp, fun _ => rfl⟩
  case Attn =>
    by_cases hb : b = CMRI_PREAMBLE_BYTE
    · subst hb
      by_cases hp : pos = RX_BUFFER_LEN
      · subst hp
        rw [process_attn_pre_full] at hok
        injection hok with h1 h2
        injection h2
      · rw [process_attn_pre P pos hp] at hok
        injection hok with h1 h2
        injection h2 with h3
        subst h3
        exact ⟨by simp, by simp, fun _ => rfl⟩
    · rw [process_attn_other P pos b hb] at hok
      injection hok with h1 h2
      injection h2 with h3
      subst h3
      exact ⟨by simp, by simp, fun _ => rfl⟩
  case Start =>
    by_cases hb : b = CMRI_START_BYTE
    · subst hb
      by_cases hp : pos = RX_BUFFER_LEN
      · subst hp
        rw [process_start_start_full] at hok
        injection hok with h1 h2
        injection h2
      · rw [process_start_start P pos hp] at hok
        injection hok with h1 h2
        injection h2 with h3
        subst h3
        exact ⟨by simp, by simp, fun _ => rfl⟩
    · rw [process_start_other P pos b hb] at hok
      injection hok with h1 h2
      injection h2 with h3
      subst h3
      exact ⟨by simp, by simp, fun _ => rfl⟩
  case Addr =>
    by_cases hp : pos = RX_BUFFER_LEN
    · subst hp
      rw [process_addr_full] at hok
      injection hok with h1 h2
      injection h2
    · rw [process_addr P pos b hp] at hok
      injection hok with h1 h2
      injection h2 with h3
      subst h3
      exact ⟨by simp, by simp, fun _ => rfl⟩
  case Typ =>
    by_cases hp : pos = RX_BUFFER_LEN
    · subst hp
      rw [process_typ_full] at hok
      injection hok with h1 h2
      injection h2
    · rw [process_typ P pos b hp] at hok
      injection hok with h1 h2
      injection h2 with h3
      subst h3
      exact ⟨by simp, by simp, fun _ => rfl⟩
  case Data =>
    by_cases hbe : b = CMRI_ESCAPE_BYTE
    · subst hbe
      by_cases hp : pos = RX_BUFFER_LEN
      · subst hp
        rw [process_data_escape_full] at hok
        injection hok with h1 h2
        injection h2
      · rw [process_data_escape P pos hp] at hok
        injection hok with h1 h2
        injection h2 with h3
        subst h3
        exact ⟨by simp [CMRI_ESCAPE_BYTE, CMRI_STOP_BYTE], by simp, fun _ => rfl⟩
    · by_cases hbs : b = CMRI_STOP_BYTE
      · subst hbs
        by_cases hp : pos = RX_BUFFER_LEN
        · subst hp
          rw [process_data_stop_full] at hok
          injection hok with h1 h2
          injection h2
        · rw [process_data_stop P pos hp] at hok
          injection hok with h1 h2
          injection h2 with h3
          subst h3
          refine ⟨by simp, fun _ => ?_, fun hcon => absurd ⟨rfl, rfl⟩ hcon⟩
          rw [← h1]
          refine ⟨rfl, rfl, ?_⟩
          dsimp only
          exact take_set_succ P pos CMRI_STOP_BYTE (by omega)
      · by_cases hp : pos = RX_BUFFER_LEN
        · subst hp
          rw [process_data_other_full P b hbe hbs] at hok
          injection hok with h1 h2
          injection h2
        · rw [process_data_other P pos b hbe hbs hp] at hok
          injection hok with h1 h2
          injection h2 with h3
          subst h3
          exact ⟨by simp [hbs], by simp, fun _ => rfl⟩
  case Escape =>
    by_cases hp : pos = RX_BUFFER_LEN
    · subst hp
      rw [process_escape_full] at hok
      injection hok with h1 h2
      injection h2
    · rw [process_escape P pos b hp] at hok
      injection hok with h1 h2
      injection h2 with h3
      subst h3
      exact ⟨by simp, by simp, fun _ => rfl⟩

/-- Witness for C1: a concrete `Data`-state machine receiving the stop byte. -/
theorem c1_complete_iff_witness :
    ((⟨.Data, List.replicate RX_BUFFER_LEN 0, 5⟩ :
        CmriStateMachine).payload.length = RX_BUFFER_LEN) ∧
    ((⟨.Data, List.replicate RX_BUFFER_LEN 0, 5⟩ :
        CmriStateMachine).position ≤ RX_BUFFER_LEN) ∧
    process ⟨.Data, List.replicate RX_BUFFER_LEN 0, 5⟩ CMRI_STOP_BYTE =
      (⟨.Idle, (List.replicate RX_BUFFER_LEN 0).set 5 CMRI_STOP_BYTE, 6⟩,
        .ok .Complete) ∧
    (((RxState.Complete = .Complete) ↔
        ((⟨.Data, List.replicate RX_BUFFER_LEN 0, 5⟩ :
          CmriStateMachine).state = .Data ∧ CMRI_STOP_BYTE = CMRI_STOP_BYTE)) ∧
      (RxState.Complete = .Complete →
        (⟨.Idle, (List.replicate RX_BUFFER_LEN 0).set 5 CMRI_STOP_BYTE, 6⟩ :
            CmriStateMachine).state = .Idle ∧
        (⟨.Idle, (List.replicate RX_BUFFER_LEN 0).set 5 CMRI_STOP_BYTE, 6⟩ :
            CmriStateMachine).position =
          (⟨.Data, List.replicate RX_BUFFER_LEN 0, 5⟩ :
            CmriStateMachine).position + 1 ∧
        (⟨.Idle, (List.replicate RX_BUFFER_LEN 0).set 5 CMRI_STOP_BYTE, 6⟩ :
            CmriStateMachine).payload.take
          (⟨.Idle, (List.replicate RX_BUFFER_LEN 0).set 5 CMRI_STOP_BYTE, 6⟩ :
            CmriStateMachine).position =
          (⟨.Data, List.replicate RX_BUFFER_LEN 0, 5⟩ :
            CmriStateMachine).payload.take
            (⟨.Data, List.replicate RX_BUFFER_LEN 0, 5⟩ :
              CmriStateMachine).position ++ [CMRI_STOP_BYTE]) ∧
      (¬((⟨.Data, List.replicate RX_BUFFER_LEN 0, 5⟩ :
          CmriStateMachine).state = .Data ∧ CMRI_STOP_BYTE = CMRI_STOP_BYTE) →
        RxState.Complete = .Listening)) :=
  ⟨by simp, by decide,
    rfl,
    c1_complete_iff ⟨.Data, List.replicate RX_BUFFER_LEN 0, 5⟩ CMRI_STOP_BYTE
      ⟨.Idle, (List.replicate RX_BUFFER_LEN 0).set 5 CMRI_STOP_BYTE, 6⟩
      .Complete (by simp) (by decide) rfl⟩

end CmriStateMachine

namespace CmriStateMachine

/-- C2: `process` returns the buffer-overflow error exactly when the cursor
already equals the 258-byte capacity at the point the incoming byte would be
written (never earlier); on an error the machine — state, cursor and buffer
contents — is returned exactly as it was, so the byte is dropped and nothing
is truncated. -/
theorem c2_overflow_iff (m : CmriStateMachine) (b : Nat) :
    ((process m b).2 = .error .OutOfBounds ↔
      (m.position = RX_BUFFER_LEN ∧ writesAtCursor m.state b = true)) ∧
    ((process m b).2 = .error .OutOfBounds → (process m b).1 = m) := by
  obtain ⟨st, P, pos⟩ := m
  dsimp only
  cases st
  case Idle =>
    by_cases hb : b = CMRI_PREAMBLE_BYTE
    · subst hb
      rw [process_idle_pre]
      exact ⟨by simp [writesAtCursor], by simp⟩
    · rw [process_idle_other P pos b hb]
      exact ⟨by simp [writesAtCursor], by simp⟩
  case Attn =>
    by_cases hb : b = CMRI_PREAMBLE_BYTE
    · subst hb
      by_cases hp : pos = RX_BUFFER_LEN
      · subst hp
        rw [process_attn_pre_full]
        exact ⟨by simp [writesAtCursor], fun _ => rfl⟩
      · rw [process_attn_pre P pos hp]
        exact ⟨by simp [writesAtCursor, hp], by simp⟩
    · rw [process_attn_other P pos b hb]
      exact ⟨by simp [writesAtCursor, hb], by simp⟩
  case Start =>
    by_cases hb : b = CMRI_START_BYTE
    · subst hb
      by_cases hp : pos = RX_BUFFER_LEN
      · subst hp
        rw [process_start_start_full]
        exact ⟨by simp [writesAtCursor], fun _ => rfl⟩
      · rw [process_start_start P pos hp]
        exact ⟨by simp [writesAtCursor, hp], by simp⟩
    · rw [process_start_other P pos b hb]
      exact ⟨by simp [writesAtCursor, hb], by simp⟩
  case Addr =>
    by_cases hp : pos = RX_BUFFER_LEN
    · subst hp
      rw [process_addr_full]
      exact ⟨by simp [writesAtCursor], fun _ => rfl⟩
    · rw [process_addr P pos b hp]
      exact ⟨by simp [writesAtCursor, hp], by simp⟩
  case Typ =>
    by_cases hp : pos = RX_BUFFER_LEN
    · subst hp
      rw [process_typ_full]
      exact ⟨by simp [writesAtCursor], fun _ => rfl⟩
    · rw [process_typ P pos b hp]
      exact ⟨by simp [writesAtCursor, hp], by simp⟩
  case Data =>
    by_cases hbe : b = CMRI_ESCAPE_BYTE
    · subst hbe
      by_cases hp : pos = RX_BUFFER_LEN
      · subst hp
        rw [process_data_escape_full]
        exact ⟨by simp [writesAtCursor], fun _ => rfl⟩
      · rw [process_data_escape P pos hp]
        exact ⟨by simp [writesAtCursor, hp], by simp⟩
    · by_cases hbs : b = CMRI_STOP_BYTE
      · subst hbs
        by_cases hp : pos = RX_BUFFER_LEN
        · subst hp
          rw [process_data_stop_full]
          exact ⟨by simp [writesAtCursor], fun _ => rfl⟩
        · rw [process_data_stop P pos hp]
          exact ⟨by simp [writesAtCursor, hp], by simp⟩
      · by_cases hp : pos = RX_BUFFER_LEN
        · subst hp
          rw [process_data_other_full P b hbe hbs]
          exact ⟨by simp [writesAtCursor], fun _ => rfl⟩
        · rw [process_data_other P pos b hbe hbs hp]
          exact ⟨by simp [writesAtCursor, hp], by simp⟩
  case Escape =>
    by_cases hp : pos = RX_BUFFER_LEN
    · subst hp
      rw [process_escape_full]
      exact ⟨by simp [writesAtCursor], fun _ => rfl⟩
    · rw [process_escape P pos b hp]
      exact ⟨by simp [writesAtCursor, hp], by simp⟩

/-- Witness for C2: a full-buffer `Data`-state machine receiving a data byte
errors and is left unchanged; the same machine in `Idle` does not error. -/
theorem c2_overflow_iff_witness :
    ((process ⟨.Data, List.replicate RX_BUFFER_LEN 0, RX_BUFFER_LEN⟩ 7).2 =
        .error .OutOfBounds ↔
      ((⟨.Data, List.replicate RX_BUFFER_LEN 0, RX_BUFFER_LEN⟩ :
          CmriStateMachine).position = RX_BUFFER_LEN ∧
        writesAtCursor (⟨.Data, List.replicate RX_BUFFER_LEN 0,
          RX_BUFFER_LEN⟩ : CmriStateMachine).state 7 = true)) ∧
    ((process ⟨.Data, List.replicate RX_BUFFER_LEN 0, RX_BUFFER_LEN⟩ 7).2 =
        .error .OutOfBounds →
      (process ⟨.Data, List.replicate RX_BUFFER_LEN 0, RX_BUFFER_LEN⟩ 7).1 =
        ⟨.Data, List.replicate RX_BUFFER_LEN 0, RX_BUFFER_LEN⟩) :=
  c2_overflow_iff ⟨.Data, List.replicate RX_BUFFER_LEN 0, RX_BUFFER_LEN⟩ 7

/-- C3: the cursor never exceeds the 258-byte capacity: it holds for every
machine reachable from `new` by processing bytes, is preserved by `process`
and `push`, is (re)established by `clear`, and a `push` at a full cursor is
refused with an error rather than truncated or wrapped. -/
theorem c3_cursor_invariant :
    new.position ≤ RX_BUFFER_LEN ∧
    (∀ bs : List Nat, (processAll new bs).position ≤ RX_BUFFER_LEN) ∧
    (∀ (m : CmriStateMachine) (b : Nat), m.position ≤ RX_BUFFER_LEN →
      m.payload.length = RX_BUFFER_LEN →
      (process m b).1.position ≤ RX_BUFFER_LEN) ∧
    (∀ (m : CmriStateMachine) (b : Nat), m.position ≤ RX_BUFFER_LEN →
      (push m b).1.position ≤ RX_BUFFER_LEN) ∧
    (∀ m : CmriStateMachine, (clear m).position ≤ RX_BUFFER_LEN) ∧
    (∀ (m : CmriStateMachine) (b : Nat), m.position = RX_BUFFER_LEN →
      push m b = (m, .error .OutOfBounds)) := by
  refine ⟨by decide, ?_, ?_, ?_, ?_, ?_⟩
  · intro bs
    exact (processAll_inv bs new (by decide) (by simp [new])).1
  · intro m b h1 h2
    exact (process_inv m b h1 h2).1
  · intro m b h
    by_cases hp : m.position = RX_BUFFER_LEN
    · rw [push_full m b hp]
      exact h
    · rw [push_ok m b hp]
      dsimp only
      omega
  · intro m
    dsimp only [clear]
    decide
  · intro m b h
    exact push_full m b h

/-- Witness for C3 at concrete machines. -/
theorem c3_cursor_invariant_witness :
    (processAll new [CMRI_PREAMBLE_BYTE, CMRI_PREAMBLE_BYTE]).position ≤
      RX_BUFFER_LEN ∧
    (process ⟨.Data, List.replicate RX_BUFFER_LEN 0, 5⟩ 7).1.position ≤
      RX_BUFFER_LEN ∧
    push ⟨.Data, List.replicate RX_BUFFER_LEN 0, RX_BUFFER_LEN⟩ 9 =
      (⟨.Data, List.replicate RX_BUFFER_LEN 0, RX_BUFFER_LEN⟩,
        .error .OutOfBounds) :=
  ⟨c3_cursor_invariant.2.1 [CMRI_PREAMBLE_BYTE, CMRI_PREAMBLE_BYTE],
    c3_cursor_invariant.2.2.1 ⟨.Data, List.replicate RX_BUFFER_LEN 0, 5⟩ 7
      (by decide) (by simp),
    c3_cursor_invariant.2.2.2.2.2 ⟨.Data, List.replicate RX_BUFFER_LEN 0,
      RX_BUFFER_LEN⟩ 9 rfl⟩

/-- C7: `process` is a total function on every reachable decoder; the buffer
write in `push` is guarded (either the cursor equals the capacity and the
guard refuses with the sole error, or the write index is strictly inside the
buffer), and the only results `process` can produce are the overflow error,
`Listening`, or `Complete`. -/
theorem c7_total_no_panic (bs : List Nat) (b : Nat) :
    ((processAll new bs).position = RX_BUFFER_LEN ∨
      (processAll new bs).position < (processAll new bs).payload.length) ∧
    ((process (processAll new bs) b).2 = .error .OutOfBounds ∨
      (process (processAll new bs) b).2 = .ok .Listening ∨
      (process (processAll new bs) b).2 = .ok .Complete) := by
  obtain ⟨h1, h2⟩ := processAll_inv bs new (by decide) (by simp [new])
  constructor
  · rw [h2]
    omega
  · cases hr : (process (processAll new bs) b).2 with
    | error e =>
      cases e
      exact Or.inl rfl
    | ok r =>
      cases r
      · exact Or.inr (Or.inl rfl)
      · exact Or.inr (Or.inr rfl)

end CmriStateMachine

namespace CmriStateMachine

theorem process_complete_state (m0 : CmriStateMachine) (b : Nat)
    (m1 : CmriStateMachine) (hok : process m0 b = (m1, .ok .Complete)) :
    m1.state = .Idle := by
  obtain ⟨st, P, pos⟩ := m0
  cases st
  case Idle =>
    by_cases hb : b = CMRI_PREAMBLE_BYTE
    · subst hb
      rw [process_idle_pre] at hok
      injection hok with h1 h2
      injection h2 with h3
      cases h3
    · rw [process_idle_other P pos b hb] at hok
      injection hok with h1 h2
      injection h2 with h3
      cases h3
  case Attn =>
    by_cases hb : b = CMRI_PREAMBLE_BYTE
    · subst hb
      by_cases hp : pos = RX_BUFFER_LEN
      · subst hp
        rw [process_attn_pre_full] at hok
        injection hok with h1 h2
        injection h2
      · rw [process_attn_pre P pos hp] at hok
        injection hok with h1 h2
        injection h2 with h3
        cases h3
    · rw [process_attn_other P pos b hb] at hok
      injection hok with h1 h2
      injection h2 with h3
      cases h3
  case Start =>
    by_cases hb : b = CMRI_START_BYTE
    · subst hb
      by_cases hp : pos = RX_BUFFER_LEN
      · subst hp
        rw [process_start_start_full] at hok
        injection hok with h1 h2
        injection h2
      · rw [process_start_start P pos hp] at hok
        injection hok with h1 h2
        injection h2 with h3
        cases h3
    · rw [process_start_other P pos b hb] at hok
      injection hok with h1 h2
      injection h2 with h3
      cases h3
  case Addr =>
    by_cases hp : pos = RX_BUFFER_LEN
    · subst hp
      rw [process_addr_full] at hok
      injection hok with h1 h2
      injection h2
    · rw [process_addr P pos b hp] at hok
      injection hok with h1 h2
      injection h2 with h3
      cases h3
  case Typ =>
    by_cases hp : pos = RX_BUFFER_LEN
    · subst hp
      rw [process_typ_full] at hok
      injection hok with h1 h2
      injection h2
    · rw [process_typ P pos b hp] at hok
      injection hok with h1 h2
      injection h2 with h3
      cases h3
  case Data =>
    by_cases hbe : b = CMRI_ESCAPE_BYTE
    · subst hbe
      by_cases hp : pos = RX_BUFFER_LEN
      · subst hp
        rw [process_data_escape_full] at hok
        injection hok with h1 h2
        injection h2
      · rw [process_data_escape P pos hp] at hok
        injection hok with h1 h2
        injection h2 with h3
        cases h3
    · by_cases hbs : b = CMRI_STOP_BYTE
      · subst hbs
        by_cases hp : pos = RX_BUFFER_LEN
        · subst hp
          rw [process_data_stop_full] at hok
          injection hok with h1 h2
          injection h2
        · rw [process_data_stop P pos hp] at hok
          injection hok with h1 h2
          rw [← h1]
      · by_cases hp : pos = RX_BUFFER_LEN
        · subst hp
          rw [process_data_other_full P b hbe hbs] at hok
          injection hok with h1 h2
          injection h2
        · rw [process_data_other P pos b hbe hbs hp] at hok
          injection hok with h1 h2
          injection h2 with h3
          cases h3
  case Escape =>
    by_cases hp : pos = RX_BUFFER_LEN
    · subst hp
      rw [process_escape_full] at hok
      injection hok with h1 h2
      injection h2
    · rw [process_escape P pos b hp] at hok
      injection hok with h1 h2
      injection h2 with h3
      cases h3

/-- C8: once the cursor has reached the buffer capacity while the decoder is
in `Data` or `Escape`, every subsequent `process` call — for every byte,
including stop and preamble bytes — returns the overflow error and leaves
the machine (state, cursor, buffer) unchanged, so the decoder never returns
`Complete` or re-enters `Idle` again on its own. -/
theorem c8_stuck_after_overflow (m : CmriStateMachine)
    (hst : m.state = .Data ∨ m.state = .Escape)
    (hpos : m.position = RX_BUFFER_LEN) :
    (∀ b : Nat, process m b = (m, .error .OutOfBounds)) ∧
    (∀ bs : List Nat,
      processTrace m bs = (m, List.replicate bs.length (.error .OutOfBounds))) := by
  have hstep : ∀ b : Nat, process m b = (m, .error .OutOfBounds) := by
    intro b
    obtain ⟨st, P, pos⟩ := m
    dsimp only at hst hpos
    subst hpos
    rcases hst with h | h
    · subst h
      by_cases hbe : b = CMRI_ESCAPE_BYTE
      · subst hbe
        exact process_data_escape_full P
      · by_cases hbs : b = CMRI_STOP_BYTE
        · subst hbs
          exact process_data_stop_full P
        · exact process_data_other_full P b hbe hbs
    · subst h
      exact process_escape_full P b
  refine ⟨hstep, ?_⟩
  intro bs
  induction bs with
  | nil => rfl
  | cons b rest ih =>
    rw [processTrace_cons, hstep b]
    dsimp only
    rw [ih]
    simp [List.replicate_succ]

/-- Witness for C8: a full-buffer `Data`-state machine stays stuck on the
stop byte and across a stop-then-preamble sequence. -/
theorem c8_stuck_after_overflow_witness :
    ((⟨.Data, List.replicate RX_BUFFER_LEN 0, RX_BUFFER_LEN⟩ :
        CmriStateMachine).state = .Data ∨
      (⟨.Data, List.replicate RX_BUFFER_LEN 0, RX_BUFFER_LEN⟩ :
        CmriStateMachine).state = .Escape) ∧
    ((⟨.Data, List.replicate RX_BUFFER_LEN 0, RX_BUFFER_LEN⟩ :
        CmriStateMachine).position = RX_BUFFER_LEN) ∧
    process ⟨.Data, List.replicate RX_BUFFER_LEN 0, RX_BUFFER_LEN⟩
        CMRI_STOP_BYTE =
      (⟨.Data, List.replicate RX_BUFFER_LEN 0, RX_BUFFER_LEN⟩,
        .error .OutOfBounds) ∧
    processTrace ⟨.Data, List.replicate RX_BUFFER_LEN 0, RX_BUFFER_LEN⟩
        [CMRI_STOP_BYTE, CMRI_PREAMBLE_BYTE] =
      (⟨.Data, List.replicate RX_BUFFER_LEN 0, RX_BUFFER_LEN⟩,
        List.replicate 2 (.error .OutOfBounds)) :=
  ⟨Or.inl rfl, rfl,
    (c8_stuck_after_overflow ⟨.Data, List.replicate RX_BUFFER_LEN 0,
      RX_BUFFER_LEN⟩ (Or.inl rfl) rfl).1 CMRI_STOP_BYTE,
    (c8_stuck_after_overflow ⟨.Data, List.replicate RX_BUFFER_LEN 0,
      RX_BUFFER_LEN⟩ (Or.inl rfl) rfl).2 [CMRI_STOP_BYTE, CMRI_PREAMBLE_BYTE]⟩

/-- C9: returning `Complete` does not clear the buffer — `Complete` leaves
the decoder in `Idle`, where every non-preamble byte leaves the machine
(buffer contents and cursor included) completely unchanged, for any number
of calls; the buffer is cleared only when a preamble byte arrives in `Idle`
and starts the next frame. -/
theorem c9_complete_keeps_buffer :
    (∀ (m0 : CmriStateMachine) (b : Nat) (m1 : CmriStateMachine),
      process m0 b = (m1, .ok .Complete) → m1.state = .Idle) ∧
    (∀ m : CmriStateMachine, m.state = .Idle →
      (∀ b : Nat, b ≠ CMRI_PREAMBLE_BYTE → process m b = (m, .ok .Listening)) ∧
      (∀ bs : List Nat, (∀ b ∈ bs, b ≠ CMRI_PREAMBLE_BYTE) →
        processTrace m bs = (m, List.replicate bs.length (.ok .Listening))) ∧
      process m CMRI_PREAMBLE_BYTE =
        (⟨.Attn, (List.replicate RX_BUFFER_LEN 0).set 0 CMRI_PREAMBLE_BYTE, 1⟩,
          .ok .Listening)) := by
  refine ⟨process_complete_state, ?_⟩
  intro m hst
  obtain ⟨st, P, pos⟩ := m
  dsimp only at hst
  subst hst
  refine ⟨fun b hb => process_idle_other P pos b hb, ?_, process_idle_pre P pos⟩
  intro bs
  induction bs with
  | nil => intro _; rfl
  | cons b rest ih =>
    intro hall
    rw [processTrace_cons,
      process_idle_other P pos b (hall b (List.mem_cons_self b rest))]
    dsimp only
    rw [ih (fun x hx => hall x (List.mem_cons_of_mem b hx))]
    simp [List.replicate_succ]

/-- Witness for C9: completing a frame lands in `Idle`; from `Idle`,
non-preamble bytes leave the machine unchanged and a preamble clears. -/
theorem c9_complete_keeps_buffer_witness :
    ((⟨.Idle, (List.replicate RX_BUFFER_LEN 0).set 5 CMRI_STOP_BYTE, 6⟩ :
        CmriStateMachine).state = .Idle) ∧
    process ⟨.Idle, (List.replicate RX_BUFFER_LEN 0).set 5 CMRI_STOP_BYTE, 6⟩ 7 =
      (⟨.Idle, (List.replicate RX_BUFFER_LEN 0).set 5 CMRI_STOP_BYTE, 6⟩,
        .ok .Listening) ∧
    processTrace ⟨.Idle, (List.replicate RX_BUFFER_LEN 0).set 5 CMRI_STOP_BYTE, 6⟩
        [7, 9] =
      (⟨.Idle, (List.replicate RX_BUFFER_LEN 0).set 5 CMRI_STOP_BYTE, 6⟩,
        List.replicate 2 (.ok .Listening)) ∧
    process ⟨.Idle, (List.replicate RX_BUFFER_LEN 0).set 5 CMRI_STOP_BYTE, 6⟩
        CMRI_PREAMBLE_BYTE =
      (⟨.Attn, (List.replicate RX_BUFFER_LEN 0).set 0 CMRI_PREAMBLE_BYTE, 1⟩,
        .ok .Listening) :=
  ⟨c9_complete_keeps_buffer.1 ⟨.Data, List.replicate RX_BUFFER_LEN 0, 5⟩
      CMRI_STOP_BYTE
      ⟨.Idle, (List.replicate RX_BUFFER_LEN 0).set 5 CMRI_STOP_BYTE, 6⟩ rfl,
    (c9_complete_keeps_buffer.2
      ⟨.Idle, (List.replicate RX_BUFFER_LEN 0).set 5 CMRI_STOP_BYTE, 6⟩ rfl).1 7
      (by decide),
    (c9_complete_keeps_buffer.2
      ⟨.Idle, (List.replicate RX_BUFFER_LEN 0).set 5 CMRI_STOP_BYTE, 6⟩ rfl).2.1
      [7, 9] (by decide),
    (c9_complete_keeps_buffer.2
      ⟨.Idle, (List.replicate RX_BUFFER_LEN 0).set 5 CMRI_STOP_BYTE, 6⟩ rfl).2.2⟩

end CmriStateMachine

namespace CmriStateMachine

/-- C10: escape sequences are stored uncollapsed: in `Data`, the `ESCAPE`
byte itself is appended to the buffer before the transition to `Escape`,
and the following byte is appended as well, so an escaped data byte
occupies two raw buffer bytes and advances the cursor by two. -/
theorem c10_escape_uncollapsed (m : CmriStateMachine) (hst : m.state = .Data)
    (hlen : m.payload.length = RX_BUFFER_LEN)
    (hcap : m.position + 2 ≤ RX_BUFFER_LEN) :
    process m CMRI_ESCAPE_BYTE =
      (⟨.Escape, m.payload.set m.position CMRI_ESCAPE_BYTE, m.position + 1⟩,
        .ok .Listening) ∧
    (∀ b : Nat,
      process ⟨.Escape, m.payload.set m.position CMRI_ESCAPE_BYTE,
          m.position + 1⟩ b =
        (⟨.Data,
          (m.payload.set m.position CMRI_ESCAPE_BYTE).set (m.position + 1) b,
          m.position + 2⟩, .ok .Listening) ∧
      ((m.payload.set m.position CMRI_ESCAPE_BYTE).set (m.position + 1) b).take
          (m.position + 2) =
        m.payload.take m.position ++ [CMRI_ESCAPE_BYTE, b]) := by
  obtain ⟨st, P, pos⟩ := m
  dsimp only at hst hlen hcap ⊢
  subst hst
  refine ⟨process_data_escape P pos (by omega), ?_⟩
  intro b
  refine ⟨process_escape _ (pos + 1) b (by omega), ?_⟩
  rw [take_set_succ (P.set pos CMRI_ESCAPE_BYTE) (pos + 1) b
      (by rw [List.length_set, hlen]; omega),
    take_set_succ P pos CMRI_ESCAPE_BYTE (by omega)]
  simp

/-- Witness for C10 at a concrete machine and escaped byte. -/
theorem c10_escape_uncollapsed_witness :
    ((⟨.Data, List.replicate RX_BUFFER_LEN 0, 5⟩ :
        CmriStateMachine).state = .Data) ∧
    ((⟨.Data, List.replicate RX_BUFFER_LEN 0, 5⟩ :
        CmriStateMachine).payload.length = RX_BUFFER_LEN) ∧
    ((⟨.Data, List.replicate RX_BUFFER_LEN 0, 5⟩ :
        CmriStateMachine).position + 2 ≤ RX_BUFFER_LEN) ∧
    process ⟨.Data, List.replicate RX_BUFFER_LEN 0, 5⟩ CMRI_ESCAPE_BYTE =
      (⟨.Escape, (List.replicate RX_BUFFER_LEN 0).set 5 CMRI_ESCAPE_BYTE, 6⟩,
        .ok .Listening) ∧
    process ⟨.Escape, (List.replicate RX_BUFFER_LEN 0).set 5 CMRI_ESCAPE_BYTE, 6⟩
        CMRI_STOP_BYTE =
      (⟨.Data, ((List.replicate RX_BUFFER_LEN 0).set 5 CMRI_ESCAPE_BYTE).set 6
          CMRI_STOP_BYTE, 7⟩, .ok .Listening) ∧
    (((List.replicate RX_BUFFER_LEN 0).set 5 CMRI_ESCAPE_BYTE).set 6
        CMRI_STOP_BYTE).take 7 =
      (List.replicate RX_BUFFER_LEN (0 : Nat)).take 5 ++
        [CMRI_ESCAPE_BYTE, CMRI_STOP_BYTE] :=
  ⟨rfl, by simp, by decide,
    (c10_escape_uncollapsed ⟨.Data, List.replicate RX_BUFFER_LEN 0, 5⟩ rfl
      (by simp) (by decide)).1,
    ((c10_escape_uncollapsed ⟨.Data, List.replicate RX_BUFFER_LEN 0, 5⟩ rfl
      (by simp) (by decide)).2 CMRI_STOP_BYTE).1,
    ((c10_escape_uncollapsed ⟨.Data, List.replicate RX_BUFFER_LEN 0, 5⟩ rfl
      (by simp) (by decide)).2 CMRI_STOP_BYTE).2⟩

/-- C5: for a data byte `b` that is one of the stop, escape or preamble
values, a decoder in `Data` with room for two bytes processes `ESCAPE` then
`b` with both calls returning `Listening`, ends back in `Data` with the two
raw bytes appended, and the escaped pair collapses to the literal `b` in the
decoded data of any frame whose earlier raw data is a well-escaped image. -/
theorem c5_escape_roundtrip (b : Nat) (hb : needsEscape b = true)
    (m : CmriStateMachine) (hst : m.state = .Data)
    (hlen : m.payload.length = RX_BUFFER_LEN)
    (hcap : m.position + 2 ≤ RX_BUFFER_LEN) :
    (process m CMRI_ESCAPE_BYTE).2 = .ok .Listening ∧
    (process (process m CMRI_ESCAPE_BYTE).1 b).2 = .ok .Listening ∧
    (process (process m CMRI_ESCAPE_BYTE).1 b).1.state = .Data ∧
    (process (process m CMRI_ESCAPE_BYTE).1 b).1.position = m.position + 2 ∧
    (process (process m CMRI_ESCAPE_BYTE).1 b).1.payload.take (m.position + 2) =
      m.payload.take m.position ++ [CMRI_ESCAPE_BYTE, b] ∧
    (∀ E : List Nat,
      collapseEscapes (escapeData E ++ [CMRI_ESCAPE_BYTE, b]) = E ++ [b]) := by
  obtain ⟨st, P, pos⟩ := m
  dsimp only at hst hlen hcap ⊢
  subst hst
  rw [process_data_escape P pos (by omega)]
  dsimp only
  rw [process_escape (P.set pos CMRI_ESCAPE_BYTE) (pos + 1) b (by omega)]
  dsimp only
  refine ⟨rfl, rfl, rfl, rfl, ?_, ?_⟩
  · rw [take_set_succ (P.set pos CMRI_ESCAPE_BYTE) (pos + 1) b
        (by rw [List.length_set, hlen]; omega),
      take_set_succ P pos CMRI_ESCAPE_BYTE (by omega)]
    simp
  · intro E
    rw [collapseEscapes_escapeData_append]
    have : collapseEscapes [CMRI_ESCAPE_BYTE, b] = [b] := by
      rw [collapseEscapes]
      simp [collapseEscapes]
    rw [this]

/-- Witness for C5 at the stop byte inside a concrete frame position. -/
theorem c5_escape_roundtrip_witness :
    needsEscape CMRI_STOP_BYTE = true ∧
    ((⟨.Data, List.replicate RX_BUFFER_LEN 0, 5⟩ :
        CmriStateMachine).state = .Data) ∧
    (process ⟨.Data, List.replicate RX_BUFFER_LEN 0, 5⟩ CMRI_ESCAPE_BYTE).2 =
      .ok .Listening ∧
    (process (process ⟨.Data, List.replicate RX_BUFFER_LEN 0, 5⟩
        CMRI_ESCAPE_BYTE).1 CMRI_STOP_BYTE).2 = .ok .Listening ∧
    (process (process ⟨.Data, List.replicate RX_BUFFER_LEN 0, 5⟩
        CMRI_ESCAPE_BYTE).1 CMRI_STOP_BYTE).1.state = .Data ∧
    collapseEscapes (escapeData [7] ++ [CMRI_ESCAPE_BYTE, CMRI_STOP_BYTE]) =
      [7] ++ [CMRI_STOP_BYTE] :=
  ⟨rfl, rfl,
    (c5_escape_roundtrip CMRI_STOP_BYTE rfl
      ⟨.Data, List.replicate RX_BUFFER_LEN 0, 5⟩ rfl (by simp) (by decide)).1,
    (c5_escape_roundtrip CMRI_STOP_BYTE rfl
      ⟨.Data, List.replicate RX_BUFFER_LEN 0, 5⟩ rfl (by simp) (by decide)).2.1,
    (c5_escape_roundtrip CMRI_STOP_BYTE rfl
      ⟨.Data, List.replicate RX_BUFFER_LEN 0, 5⟩ rfl (by simp)
        (by decide)).2.2.1,
    (c5_escape_roundtrip CMRI_STOP_BYTE rfl
      ⟨.Data, List.replicate RX_BUFFER_LEN 0, 5⟩ rfl (by simp)
        (by decide)).2.2.2.2.2 [7]⟩

end CmriStateMachine

namespace CmriStateMachine

/-- C4: feeding a full valid frame `FF FF 02 addr typ (escaped data) 03` of
raw length at most 258 to a fresh decoder returns `Listening` on every byte
except the final stop byte, which returns `Complete`; the Message View over
the buffer then yields the address byte, the decoded type byte (with the
explicit unknown variant for unrecognized values), and the literal data
bytes with the escaping collapsed away. -/
theorem c4_full_frame (addr typ : Nat) (D : List Nat)
    (hcap : (fullFrame addr typ D).length ≤ RX_BUFFER_LEN) :
    (processTrace new (fullFrame addr typ D)).2 =
      List.replicate ((fullFrame addr typ D).length - 1) (.ok .Listening) ++
        [.ok .Complete] ∧
    (processAll new (fullFrame addr typ D)).message.address = addr ∧
    (processAll new (fullFrame addr typ D)).message.message_type =
      decodeMessageType typ ∧
    (processAll new (fullFrame addr typ D)).message.data = D := by
  have hlenF : (fullFrame addr typ D).length = 6 + (escapeData D).length := by
    simp [fullFrame]
    omega
  have hcap6 : 6 + (escapeData D).length ≤ RX_BUFFER_LEN := by
    rw [hlenF] at hcap
    exact hcap
  obtain ⟨hs, hp, hl, ht, hr⟩ := frame_trace addr typ D hcap6
  have hFFc : fullFrame addr typ D =
      CMRI_PREAMBLE_BYTE :: CMRI_PREAMBLE_BYTE :: CMRI_START_BYTE :: addr :: typ ::
        (escapeData D ++ [CMRI_STOP_BYTE]) := by
    simp [fullFrame]
  have hraw : (processAll new (fullFrame addr typ D)).payload.take
      ((processAll new (fullFrame addr typ D)).position) = fullFrame addr typ D := by
    rw [hp]
    exact ht
  refine ⟨?_, ?_, ?_, ?_⟩
  · rw [hr, hlenF]
    rw [show 6 + (escapeData D).length - 1 = 5 + (escapeData D).length by omega]
  · simp only [message]
    rw [hraw, hFFc]
    simp [List.getD]
  · simp only [message]
    rw [hraw, hFFc]
    simp [List.getD]
  · simp only [message]
    rw [hraw, hFFc]
    simp only [List.drop_succ_cons, List.drop_zero]
    rw [List.dropLast_concat, collapseEscapes_escapeData]

/-- Witness for C4: the concrete frame `FF FF 02 01 50 10 03 03` whose data
payload is the escaped stop byte. -/
theorem c4_full_frame_witness :
    (fullFrame 1 0x50 [CMRI_STOP_BYTE]).length ≤ RX_BUFFER_LEN ∧
    ((processTrace new (fullFrame 1 0x50 [CMRI_STOP_BYTE])).2 =
      List.replicate ((fullFrame 1 0x50 [CMRI_STOP_BYTE]).length - 1)
        (.ok .Listening) ++ [.ok .Complete] ∧
    (processAll new (fullFrame 1 0x50 [CMRI_STOP_BYTE])).message.address = 1 ∧
    (processAll new (fullFrame 1 0x50 [CMRI_STOP_BYTE])).message.message_type =
      decodeMessageType 0x50 ∧
    (processAll new (fullFrame 1 0x50 [CMRI_STOP_BYTE])).message.data =
      [CMRI_STOP_BYTE]) :=
  ⟨by decide, c4_full_frame 1 0x50 [CMRI_STOP_BYTE] (by decide)⟩

/-- C6 counterexample: the single-byte sequence `FF` contains no
`FF FF 02` pattern, yet it leaves a fresh decoder in `Attn` with cursor 1,
not in `Idle` with cursor 0 as the claim states. -/
theorem c6_counterexample :
    containsFrameStart [CMRI_PREAMBLE_BYTE] = false ∧
    ¬((processAll new [CMRI_PREAMBLE_BYTE]).state = .Idle ∧
      (processAll new [CMRI_PREAMBLE_BYTE]).position = 0) := by
  refine ⟨rfl, ?_⟩
  intro hcon
  have hattn : (processAll new [CMRI_PREAMBLE_BYTE]).state = .Attn := rfl
  rw [hcon.1] at hattn
  cases hattn

/-- C6 (amended): for every byte sequence without the contiguous pattern
`FF FF 02`, a fresh decoder ends in one of the three resynchronization
configurations — `Idle` with cursor 0, `Attn` with cursor 1 (trailing
partial preamble) or `Start` with cursor 2 (trailing double preamble); it
never reaches the frame-body states. -/
theorem c6_no_frame_start_resync (bs : List Nat)
    (hc : containsFrameStart bs = false) :
    ((processAll new bs).state = .Idle ∧ (processAll new bs).position = 0) ∨
    ((processAll new bs).state = .Attn ∧ (processAll new bs).position = 1) ∨
    ((processAll new bs).state = .Start ∧ (processAll new bs).position = 2) := by
  rcases (resync_run bs).1 hc with h | h | h
  · exact Or.inl (by rw [h]; exact ⟨rfl, rfl⟩)
  · exact Or.inr (Or.inl (by rw [h]; exact ⟨rfl, rfl⟩))
  · exact Or.inr (Or.inr (by rw [h]; exact ⟨rfl, rfl⟩))

/-- Witness for the amended C6 on a concrete noise sequence. -/
theorem c6_no_frame_start_resync_witness :
    containsFrameStart [5, CMRI_PREAMBLE_BYTE, CMRI_STOP_BYTE, 9] = false ∧
    (((processAll new [5, CMRI_PREAMBLE_BYTE, CMRI_STOP_BYTE, 9]).state = .Idle ∧
      (processAll new [5, CMRI_PREAMBLE_BYTE, CMRI_STOP_BYTE, 9]).position = 0) ∨
    ((processAll new [5, CMRI_PREAMBLE_BYTE, CMRI_STOP_BYTE, 9]).state = .Attn ∧
      (processAll new [5, CMRI_PREAMBLE_BYTE, CMRI_STOP_BYTE, 9]).position = 1) ∨
    ((processAll new [5, CMRI_PREAMBLE_BYTE, CMRI_STOP_BYTE, 9]).state = .Start ∧
      (processAll new [5, CMRI_PREAMBLE_BYTE, CMRI_STOP_BYTE, 9]).position = 2)) :=
  ⟨rfl, c6_no_frame_start_resync [5, CMRI_PREAMBLE_BYTE, CMRI_STOP_BYTE, 9] rfl⟩

end CmriStateMachine
